import Mathlib

/-!
Verification of the resilient weather-data access layer of the Weather-APP
repository.  The definitions below are shallow embeddings of the JavaScript
source: `sanitizeSearchQuery` and `CacheService` from the design document's
code (services/cacheService.js and utils/validation.js snippets), the search
and fetch handlers from the two App.js variants, and — where the repository
contains no implementation — a model built from the specification's words
(marked as such in the doc comment).  Time is represented in milliseconds as
`Nat`, passed explicitly where the source reads the wall clock.
-/

namespace WeatherApp

/-! ## Validator: sanitizeSearchQuery (src/unnamed/part_003, lines 138-154)

The JavaScript function trims the input, truncates with `substring(0, 100)`,
and then escapes the five HTML special characters by global single-character
regex replacement, in the order `&`, `<`, `>`, `"`, `'`. -/

def ampC : Char := '&'

def ltC : Char := '<'

def gtC : Char := '>'

def quotC : Char := Char.ofNat 34

def aposC : Char := Char.ofNat 39

def ampEnt : List Char := "&amp;".data

def ltEnt : List Char := "&lt;".data

def gtEnt : List Char := "&gt;".data

def quotEnt : List Char := "&quot;".data

def aposEnt : List Char := "&#x27;".data

/-- Code points treated as whitespace by JavaScript's `String.prototype.trim`. -/
def jsWhitespaceCodes : List Nat :=
  [9, 10, 11, 12, 13, 32, 160, 5760,
   8192, 8193, 8194, 8195, 8196, 8197, 8198, 8199, 8200, 8201, 8202,
   8232, 8233, 8239, 8287, 12288, 65279]

def jsWhitespace (c : Char) : Bool := jsWhitespaceCodes.contains c.toNat

/-- `input.trim()`: drop whitespace from both ends. -/
def trimJS (l : List Char) : List Char :=
  ((l.dropWhile jsWhitespace).reverse.dropWhile jsWhitespace).reverse

/-- Global single-character replacement, the effect of
`s.replace(/c/g, r)` for a one-character pattern `c`. -/
def replaceChar (c : Char) (r : List Char) : List Char → List Char
  | [] => []
  | x :: xs => (if x = c then r else [x]) ++ replaceChar c r xs

/-- The escaping chain of `sanitizeSearchQuery`: `&`, then `<`, `>`, `"`, `'`. -/
def escapeHtml (l : List Char) : List Char :=
  replaceChar aposC aposEnt
    (replaceChar quotC quotEnt
      (replaceChar gtC gtEnt
        (replaceChar ltC ltEnt
          (replaceChar ampC ampEnt l))))

/-- `sanitizeSearchQuery` from the repository: trim, truncate to 100,
then escape HTML special characters. -/
def sanitizeSearchQuery (s : String) : String :=
  String.mk (escapeHtml ((trimJS s.data).take 100))

/-- Per-character view of the escaping chain (proved equal to `escapeHtml`
below): each special character maps to its entity, all others are kept. -/
def escChar (c : Char) : List Char :=
  if c = ampC then ampEnt
  else if c = ltC then ltEnt
  else if c = gtC then gtEnt
  else if c = quotC then quotEnt
  else if c = aposC then aposEnt
  else [c]

def entityList : List (List Char) := [ampEnt, ltEnt, gtEnt, quotEnt, aposEnt]

/-- Every ampersand in the list begins one of the five escape entities. -/
def ampOk : List Char → Bool
  | [] => true
  | c :: rest =>
    (if c = ampC then entityList.any fun e => List.isPrefixOf e (c :: rest)
     else true)
      && ampOk rest

/-! ## CacheStore: CacheService (src/unnamed/part_003, lines 348-377)

The JavaScript class keeps a `Map` from keys to `{ value, expiresAt }`;
`set` stores `expiresAt = Date.now() + ttl`; `get` returns `null` on a
missing key, deletes and returns `null` when `Date.now() > expiresAt`, and
otherwise returns the stored value.  The `Map` is modelled as an
association list with unique keys; the clock is an explicit argument. -/

namespace CacheService

structure CacheEntry (V : Type) where
  value : V
  expiresAt : Nat
deriving DecidableEq, Repr

def Cache (V : Type) : Type := List (String × CacheEntry V)

/-- `Map.prototype.get`. -/
def mapGet {V : Type} : Cache V → String → Option (CacheEntry V)
  | [], _ => none
  | (k', e) :: rest, k => if k' = k then some e else mapGet rest k

/-- `Map.prototype.set`: replace the binding if the key exists, else append. -/
def mapSet {V : Type} : Cache V → String → CacheEntry V → Cache V
  | [], k, e => [(k, e)]
  | (k', e') :: rest, k, e =>
    if k' = k then (k, e) :: rest else (k', e') :: mapSet rest k e

/-- `Map.prototype.delete`. -/
def mapDelete {V : Type} : Cache V → String → Cache V
  | [], _ => []
  | (k', e') :: rest, k => if k' = k then rest else (k', e') :: mapDelete rest k

/-- `CacheService.set(key, value, ttl)` at wall-clock time `now`. -/
def set {V : Type} (c : Cache V) (now : Nat) (k : String) (v : V) (ttl : Nat) :
    Cache V :=
  mapSet c k { value := v, expiresAt := now + ttl }

/-- `CacheService.get(key)` at wall-clock time `now`: returns the value (or
`none`) together with the store after the lazy expiry deletion. -/
def get {V : Type} (c : Cache V) (now : Nat) (k : String) :
    Option V × Cache V :=
  match mapGet c k with
  | none => (none, c)
  | some item =>
    if item.expiresAt < now then (none, mapDelete c k) else (some item.value, c)

end CacheService

/-! ## ErrorClassifier taxonomy (spec section 4.4) and RetryPolicy -/

inductive ErrorKind where
  | NetworkError
  | RateLimited
  | ServerError
  | BadRequest
  | NotFound
  | SchemaError
  | ValidationError
deriving DecidableEq, Repr

/-- Retryability per the error taxonomy: network errors, HTTP 429 and HTTP
5xx are transient; everything else is not. -/
def retryable : ErrorKind → Bool
  | ErrorKind.NetworkError => true
  | ErrorKind.RateLimited => true
  | ErrorKind.ServerError => true
  | _ => false

structure ClassifiedError where
  kind : ErrorKind
  message : String
deriving DecidableEq, Repr

namespace RetryPolicy

structure RetryResult (α : Type) where
  result : Except ClassifiedError α
  delays : List Nat
  attempts : Nat
deriving Repr

/-- Modelled from the spec: the repository has no RetryPolicy implementation
under src (the design document only names `weatherApi.js` retry features and
Property 3), so `execute` is built from section 4.2 of the specification:
attempt the operation; on a retryable failure wait `baseDelay * 2^attemptIndex`
and retry while attempts remain; on a non-retryable failure or exhaustion
propagate the last error.  The operation is a function from the attempt index
to its outcome; the returned record carries the result, the list of delays
waited, and the number of attempts made. -/
def executeFrom {α : Type} (op : Nat → Except ClassifiedError α)
    (baseDelay : Nat) : Nat → Nat → RetryResult α
  | i, retries =>
    match op i with
    | Except.ok a => { result := Except.ok a, delays := [], attempts := 1 }
    | Except.error e =>
      match retries with
      | 0 => { result := Except.error e, delays := [], attempts := 1 }
      | r + 1 =>
        if retryable e.kind then
          let sub := executeFrom op baseDelay (i + 1) r
          { result := sub.result
            delays := baseDelay * 2 ^ i :: sub.delays
            attempts := sub.attempts + 1 }
        else { result := Except.error e, delays := [], attempts := 1 }

/-- Modelled from the spec: `execute(operation, maxAttempts, baseDelay)`
(spec section 4.2); starts at attempt index 0 with `maxAttempts - 1`
retries remaining. -/
def execute {α : Type} (op : Nat → Except ClassifiedError α)
    (maxAttempts baseDelay : Nat) : RetryResult α :=
  executeFrom op baseDelay 0 (maxAttempts - 1)

end RetryPolicy

/-! ## Orchestration state of weather-app/src/App.js (C5)

`fetchWeatherData` (lines 75-98) sets loading, clears the error, stores the
payload on success and sets the error message on failure; `fetchMarineData`
(lines 123-140) stores the payload on success and on any failure silently
sets `marineData` to null — its catch block neither sets the error state nor
logs anything.  The component state is a record; the axios outcome is passed
in as an `Except`. -/

structure WAState (W M : Type) where
  weatherData : Option W
  marineData : Option M
  error : Option String
  loading : Bool
  log : List String
deriving Repr

def fetchWeatherData {W M : Type} (st : WAState W M) (res : Except String W) :
    WAState W M :=
  match res with
  | Except.ok d => { st with loading := false, error := none, weatherData := some d }
  | Except.error _ =>
    { st with loading := false, error := some "Failed to fetch weather data" }

def fetchMarineData {W M : Type} (st : WAState W M) (res : Except String M) :
    WAState W M :=
  match res with
  | Except.ok d => { st with marineData := some d }
  | Except.error _ => { st with marineData := none }

/-! ## Fetch resolution order in src/src/App.js (C4)

`fetchWx` (lines 134-158) unconditionally runs `setWx(data)` when its axios
call resolves; there is no generation tag.  Overlapping fetches are modelled
by the list of their resolutions in wall-clock resolution order, folded over
the component state. -/

structure WxState (D : Type) where
  wx : Option D
  error : Option String
deriving Repr

/-- The error banner message set by `fetchWx` on failure. -/
def wxErrorMsg : String :=
  "Unable to fetch weather data. Please check your connection and try again."

/-- Effect of one `fetchWx` invocation resolving: `setWx(data)` on success,
`setError(...)` on failure. -/
def fetchWxResolve {D : Type} (st : WxState D) (res : Except String D) :
    WxState D :=
  match res with
  | Except.ok d => { st with wx := some d }
  | Except.error _ => { st with error := some wxErrorMsg }

/-- Apply a sequence of fetch resolutions in the order they arrive. -/
def applyResolutions {D : Type} (st : WxState D) (l : List (Except String D)) :
    WxState D :=
  l.foldl fetchWxResolve st

/-! ## Debounced search in src/src/App.js (C9, C10)

`onSearch` (lines 193-204) stores the query, always clears the pending
timer, resets the suggestion list and returns for inputs shorter than two
characters, and otherwise schedules the geocoding request 300ms ahead. -/

structure SearchState where
  query : String
  hits : List String
  pending : Option (Nat × String)
deriving Repr

/-- One `onSearch` call at wall-clock time `now` with input `v`. -/
def onSearch (st : SearchState) (now : Nat) (v : String) : SearchState :=
  if v.length < 2 then { query := v, hits := [], pending := none }
  else { query := v, hits := st.hits, pending := some (now + 300, v) }

/-- Run a time-ordered sequence of keystroke events `(time, text)` through
the timer semantics of `onSearch` and collect the geocoding requests that
are issued: a pending timer fires (issuing its request) when its deadline
has passed by the time of the next keystroke; every keystroke clears the
pending timer and schedules a new one only for texts of length at least 2;
a timer still pending after the last keystroke eventually fires. -/
def procEvents : Option (Nat × String) → List (Nat × String) → List String
  | some (_, q), [] => [q]
  | none, [] => []
  | pending, (t, v) :: rest =>
    (match pending with
     | some (tf, q) => if tf ≤ t then [q] else []
     | none => []) ++
    procEvents (if 2 ≤ v.length then some (t + 300, v) else none) rest

/-- What a pending timer contributes ahead of a given residual event list. -/
def pendEmit : Option (Nat × String) → List (Nat × String) → List String
  | none, _ => []
  | some (_, q), [] => [q]
  | some (tf, q), (t, _) :: _ => if tf ≤ t then [q] else []

/-- The specification's description of 300ms debouncing: a keystroke's query
is resolved exactly when it is at least two characters long and is followed
by no further keystroke within 300ms (or is the last keystroke). -/
def debouncedSpec : List (Nat × String) → List String
  | [] => []
  | (t, v) :: rest =>
    (match rest with
     | [] => if 2 ≤ v.length then [v] else []
     | (t', _) :: _ => if 2 ≤ v.length ∧ t + 300 ≤ t' then [v] else []) ++
    debouncedSpec rest

/-! ## Concrete operands used by witnesses and counterexamples -/

/-- An operation failing with HTTP 500 on attempts 0 and 1, succeeding on 2. -/
def opTwiceThenOk : Nat → Except ClassifiedError Nat :=
  fun i =>
    if i < 2 then Except.error { kind := ErrorKind.ServerError, message := "HTTP 500" }
    else Except.ok 7

/-- An operation failing with a non-retryable HTTP 404 classification. -/
def opBadRequest : Nat → Except ClassifiedError Nat :=
  fun _ => Except.error { kind := ErrorKind.BadRequest, message := "HTTP 400" }

/-- A cache holding one entry written at time 0 with a 10-minute TTL. -/
def cacheTenMin : CacheService.Cache Nat :=
  CacheService.set [] 0 "k" 42 600000

/-- A component state with a loaded snapshot, used to exercise collaborator
failures. -/
def waSample : WAState Nat Nat :=
  { weatherData := some 7, marineData := some 3, error := none,
    loading := false, log := [] }

/-- A search state with a stale suggestion list and a pending timer. -/
def searchSample : SearchState :=
  { query := "q", hits := ["Berlin"], pending := some (5, "ab") }

/-! ## Helper lemmas about the escaping chain -/

theorem replaceChar_append (c : Char) (r a b : List Char) :
    replaceChar c r (a ++ b) = replaceChar c r a ++ replaceChar c r b := by
  induction a with
  | nil => simp [replaceChar]
  | cons x xs ih => simp [replaceChar, ih]

theorem escapeHtml_append (a b : List Char) :
    escapeHtml (a ++ b) = escapeHtml a ++ escapeHtml b := by
  simp [escapeHtml, replaceChar_append]

theorem escapeHtml_single (x : Char) : escapeHtml [x] = escChar x := by
  by_cases h1 : x = ampC
  · subst h1; decide
  · by_cases h2 : x = ltC
    · subst h2; decide
    · by_cases h3 : x = gtC
      · subst h3; decide
      · by_cases h4 : x = quotC
        · subst h4; decide
        · by_cases h5 : x = aposC
          · subst h5; decide
          · simp [escapeHtml, replaceChar, escChar, h1, h2, h3, h4, h5]

theorem escapeHtml_eq_flatMap (l : List Char) : escapeHtml l = l.flatMap escChar := by
  induction l with
  | nil => rfl
  | cons x xs ih =>
    rw [List.flatMap_cons, ← ih, ← escapeHtml_single x]
    exact escapeHtml_append [x] xs

/-- Every character of the five escape entities is neither a markup
character nor outside the entity alphabet. -/
theorem entityList_safe :
    ∀ e ∈ entityList, ∀ c ∈ e,
      c ≠ ltC ∧ c ≠ gtC ∧ c ≠ quotC ∧ c ≠ aposC := by decide

theorem escChar_safe (x c : Char) (hc : c ∈ escChar x) :
    c ≠ ltC ∧ c ≠ gtC ∧ c ≠ quotC ∧ c ≠ aposC := by
  by_cases h1 : x = ampC
  · exact entityList_safe ampEnt (by decide) c (by simpa [escChar, h1] using hc)
  · by_cases h2 : x = ltC
    · exact entityList_safe ltEnt (by decide) c (by simpa [escChar, h1, h2] using hc)
    · by_cases h3 : x = gtC
      · exact entityList_safe gtEnt (by decide) c
          (by simpa [escChar, h1, h2, h3] using hc)
      · by_cases h4 : x = quotC
        · exact entityList_safe quotEnt (by decide) c
            (by simpa [escChar, h1, h2, h3, h4] using hc)
        · by_cases h5 : x = aposC
          · exact entityList_safe aposEnt (by decide) c
              (by simpa [escChar, h1, h2, h3, h4, h5] using hc)
          · have hcx : c = x := by
              simpa [escChar, h1, h2, h3, h4, h5] using hc
            subst hcx
            exact ⟨h2, h3, h4, h5⟩

theorem ampOk_escChar_append (x : Char) (m : List Char) :
    ampOk (escChar x ++ m) = ampOk m := by
  by_cases h1 : x = ampC
  · subst h1
    simp [escChar, ampEnt, ampOk, entityList, List.isPrefixOf,
      ampC, ltC, gtC, quotC, aposC, ltEnt, gtEnt, quotEnt, aposEnt]
  · by_cases h2 : x = ltC
    · subst h2
      simp [escChar, ampEnt, ampOk, entityList, List.isPrefixOf,
        ampC, ltC, gtC, quotC, aposC, ltEnt, gtEnt, quotEnt, aposEnt]
    · by_cases h3 : x = gtC
      · subst h3
        simp [escChar, ampEnt, ampOk, entityList, List.isPrefixOf,
          ampC, ltC, gtC, quotC, aposC, ltEnt, gtEnt, quotEnt, aposEnt]
      · by_cases h4 : x = quotC
        · subst h4
          simp [escChar, ampEnt, ampOk, entityList, List.isPrefixOf,
            ampC, ltC, gtC, quotC, aposC, ltEnt, gtEnt, quotEnt, aposEnt]
        · by_cases h5 : x = aposC
          · subst h5
            simp [escChar, ampEnt, ampOk, entityList, List.isPrefixOf,
              ampC, ltC, gtC, quotC, aposC, ltEnt, gtEnt, quotEnt, aposEnt]
          · simp [escChar, h1, h2, h3, h4, h5, ampOk]

theorem ampOk_flatMap_escChar (l : List Char) :
    ampOk (l.flatMap escChar) = true := by
  induction l with
  | nil => rfl
  | cons x xs ih => rw [List.flatMap_cons, ampOk_escChar_append, ih]

/-! ## Helper lemmas about the CacheService map -/

namespace CacheService

theorem mapGet_mapSet_self {V : Type} (c : Cache V) (k : String)
    (e : CacheEntry V) : mapGet (mapSet c k e) k = some e := by
  induction c with
  | nil => simp [mapSet, mapGet]
  | cons p rest ih =>
    obtain ⟨k', e'⟩ := p
    by_cases h : k' = k
    · simp [mapSet, h, mapGet]
    · simp [mapSet, h, mapGet, ih]

theorem mapGet_eq_none_of_not_mem {V : Type} (c : Cache V) (k : String)
    (h : k ∉ c.map Prod.fst) : mapGet c k = none := by
  induction c with
  | nil => rfl
  | cons p rest ih =>
    obtain ⟨k', e'⟩ := p
    simp only [List.map_cons, List.mem_cons, not_or] at h
    have hk : ¬ k' = k := fun hkk => h.1 hkk.symm
    simp [mapGet, hk, ih h.2]

theorem mem_keys_mapSet {V : Type} (c : Cache V) (k a : String)
    (e : CacheEntry V) (h : a ∈ (mapSet c k e).map Prod.fst) :
    a = k ∨ a ∈ c.map Prod.fst := by
  induction c with
  | nil =>
    simp only [mapSet, List.map_cons, List.map_nil, List.mem_singleton] at h
    exact Or.inl h
  | cons p rest ih =>
    obtain ⟨k', e'⟩ := p
    by_cases hk : k' = k
    · simp only [mapSet, if_pos hk, List.map_cons, List.mem_cons] at h
      rcases h with h | h
      · exact Or.inl h
      · exact Or.inr (by simp only [List.map_cons, List.mem_cons]; exact Or.inr h)
    · simp only [mapSet, if_neg hk, List.map_cons, List.mem_cons] at h
      rcases h with h | h
      · exact Or.inr (by simp only [List.map_cons, List.mem_cons]; exact Or.inl h)
      · rcases ih h with h' | h'
        · exact Or.inl h'
        · exact Or.inr (by simp only [List.map_cons, List.mem_cons]; exact Or.inr h')

theorem keys_nodup_mapSet {V : Type} (c : Cache V) (k : String)
    (e : CacheEntry V) (h : (c.map Prod.fst).Nodup) :
    ((mapSet c k e).map Prod.fst).Nodup := by
  induction c with
  | nil => simp [mapSet]
  | cons p rest ih =>
    obtain ⟨k', e'⟩ := p
    simp only [List.map_cons, List.nodup_cons] at h
    by_cases hk : k' = k
    · subst hk
      simp only [mapSet, eq_self_iff_true, if_true, List.map_cons, List.nodup_cons]
      exact h
    · simp only [mapSet, if_neg hk, List.map_cons, List.nodup_cons]
      refine ⟨?_, ih h.2⟩
      intro hmem
      rcases mem_keys_mapSet rest k k' e hmem with h' | h'
      · exact hk h'
      · exact h.1 h'

theorem mapGet_mapDelete_self {V : Type} (c : Cache V) (k : String)
    (h : (c.map Prod.fst).Nodup) : mapGet (mapDelete c k) k = none := by
  induction c with
  | nil => rfl
  | cons p rest ih =>
    obtain ⟨k', e'⟩ := p
    simp only [List.map_cons, List.nodup_cons] at h
    by_cases hk : k' = k
    · subst hk
      simp only [mapDelete, if_pos rfl]
      exact mapGet_eq_none_of_not_mem rest k' h.1
    · simp [mapDelete, hk, mapGet, ih h.2]

end CacheService

/-! ## Helper lemma for the debounce semantics -/

theorem pendEmit_sched (t : Nat) (v : String) (rest : List (Nat × String)) :
    pendEmit (if 2 ≤ v.length then some (t + 300, v) else none) rest =
      match rest with
      | [] => if 2 ≤ v.length then [v] else []
      | (t', _) :: _ => if 2 ≤ v.length ∧ t + 300 ≤ t' then [v] else [] := by
  by_cases h : 2 ≤ v.length
  · cases rest with
    | nil => simp [h, pendEmit]
    | cons q qs => obtain ⟨t', w⟩ := q; simp [h, pendEmit]
  · cases rest with
    | nil => simp [h, pendEmit]
    | cons q qs => obtain ⟨t', w⟩ := q; simp [h, pendEmit]

theorem procEvents_pendEmit (evs : List (Nat × String)) :
    ∀ pd, procEvents pd evs = pendEmit pd evs ++ debouncedSpec evs := by
  induction evs with
  | nil =>
    intro pd
    match pd with
    | none => rfl
    | some (tf, q) => rfl
  | cons ev rest ih =>
    intro pd
    obtain ⟨t, v⟩ := ev
    match pd with
    | none =>
      simp only [procEvents, pendEmit, debouncedSpec, List.nil_append]
      rw [ih, pendEmit_sched]
    | some (tf, q) =>
      simp only [procEvents, pendEmit, debouncedSpec]
      rw [ih, pendEmit_sched]

/-! ## Claim theorems -/

/-- Claim C1: with maxAttempts 3 and baseDelay 1000ms, an operation failing
with a retryable error on attempts 0 and 1 and succeeding on attempt 2
yields the success result after delays of 1000ms and 2000ms (baseDelay
times 2 to the attempt index) and 3 attempts, while an operation failing
with a non-retryable error is attempted exactly once, with no delay, and
its error is propagated.  RetryPolicy is modelled from the spec, since the
repository contains no implementation. -/
theorem retryPolicy_exec_spec {α : Type}
    (op opn : Nat → Except ClassifiedError α) (v : α)
    (e0 e1 en : ClassifiedError)
    (h0 : op 0 = Except.error e0) (h1 : op 1 = Except.error e1)
    (h2 : op 2 = Except.ok v)
    (hr0 : retryable e0.kind = true) (hr1 : retryable e1.kind = true)
    (hn : opn 0 = Except.error en) (hrn : retryable en.kind = false) :
    (RetryPolicy.execute op 3 1000).result = Except.ok v ∧
    (RetryPolicy.execute op 3 1000).delays = [1000, 2000] ∧
    (RetryPolicy.execute op 3 1000).attempts = 3 ∧
    (RetryPolicy.execute opn 3 1000).result = Except.error en ∧
    (RetryPolicy.execute opn 3 1000).delays = [] ∧
    (RetryPolicy.execute opn 3 1000).attempts = 1 := by
  have hA : RetryPolicy.execute op 3 1000 =
      { result := Except.ok v, delays := [1000, 2000], attempts := 3 } := by
    show RetryPolicy.executeFrom op 1000 0 2 = _
    rw [RetryPolicy.executeFrom, h0]
    simp only [hr0, if_true]
    rw [RetryPolicy.executeFrom, h1]
    simp only [hr1, if_true]
    rw [RetryPolicy.executeFrom, h2]
    norm_num
  have hB : RetryPolicy.execute opn 3 1000 =
      { result := Except.error en, delays := [], attempts := 1 } := by
    show RetryPolicy.executeFrom opn 1000 0 2 = _
    rw [RetryPolicy.executeFrom, hn]
    simp [hrn]
  rw [hA, hB]
  exact ⟨rfl, rfl, rfl, rfl, rfl, rfl⟩

/-- Witness for C1: the concrete operation failing twice with HTTP 500 and
then returning 7, and the concrete operation failing with HTTP 400. -/
theorem retryPolicy_exec_spec_witness :
    (RetryPolicy.execute opTwiceThenOk 3 1000).result = Except.ok 7 ∧
    (RetryPolicy.execute opTwiceThenOk 3 1000).delays = [1000, 2000] ∧
    (RetryPolicy.execute opTwiceThenOk 3 1000).attempts = 3 ∧
    (RetryPolicy.execute opBadRequest 3 1000).result =
      Except.error { kind := ErrorKind.BadRequest, message := "HTTP 400" } ∧
    (RetryPolicy.execute opBadRequest 3 1000).delays = [] ∧
    (RetryPolicy.execute opBadRequest 3 1000).attempts = 1 :=
  retryPolicy_exec_spec opTwiceThenOk opBadRequest 7
    { kind := ErrorKind.ServerError, message := "HTTP 500" }
    { kind := ErrorKind.ServerError, message := "HTTP 500" }
    { kind := ErrorKind.BadRequest, message := "HTTP 400" }
    rfl rfl rfl rfl rfl rfl rfl

/-- Claim C2: an entry written by `CacheService.set` at time T with a
positive ttl is returned by `get` at every time t up to and including
T + ttl; at every later time `get` returns none and the entry is removed
from the store by that access.  The store is required to have no duplicate
keys, the invariant of the JavaScript `Map`. -/
theorem cacheService_ttl_get {V : Type} (c : CacheService.Cache V)
    (k : String) (v : V) (ttl T t : Nat)
    (hnd : (c.map Prod.fst).Nodup) (hpos : 0 < ttl) :
    (t ≤ T + ttl →
      (CacheService.get (CacheService.set c T k v ttl) t k).1 = some v) ∧
    (T + ttl < t →
      (CacheService.get (CacheService.set c T k v ttl) t k).1 = none ∧
      CacheService.mapGet
        (CacheService.get (CacheService.set c T k v ttl) t k).2 k = none) := by
  have hg : CacheService.mapGet (CacheService.set c T k v ttl) k =
      some { value := v, expiresAt := T + ttl } :=
    CacheService.mapGet_mapSet_self c k _
  constructor
  · intro ht
    simp [CacheService.get, hg, Nat.not_lt.mpr ht]
  · intro ht
    have h2 : (CacheService.get (CacheService.set c T k v ttl) t k).2 =
        CacheService.mapDelete (CacheService.set c T k v ttl) k := by
      simp [CacheService.get, hg, ht]
    refine ⟨by simp [CacheService.get, hg, ht], ?_⟩
    rw [h2]
    exact CacheService.mapGet_mapDelete_self _ k
      (CacheService.keys_nodup_mapSet c k _ hnd)

/-- Witness for C2: an entry written at time 100 with ttl 10 is present at
time 110 and gone (and removed) at time 111. -/
theorem cacheService_ttl_get_witness :
    (CacheService.get (CacheService.set [] 100 "k" (5 : Nat) 10) 110 "k").1 =
      some 5 ∧
    (CacheService.get (CacheService.set [] 100 "k" (5 : Nat) 10) 111 "k").1 =
      none ∧
    CacheService.mapGet
      (CacheService.get (CacheService.set [] 100 "k" (5 : Nat) 10) 111 "k").2
      "k" = none := by
  refine ⟨?_, ?_, ?_⟩
  · exact (cacheService_ttl_get [] "k" 5 10 100 110
      (by simp) (by decide)).1 (by decide)
  · exact ((cacheService_ttl_get [] "k" 5 10 100 111
      (by simp) (by decide)).2 (by decide)).1
  · exact ((cacheService_ttl_get [] "k" 5 10 100 111
      (by simp) (by decide)).2 (by decide)).2

/-- Counterexample to claim C3: for an entry with a 10-minute ttl written at
time 0, `CacheService.get` at 6 minutes returns a result identical to the
one at 4 minutes — `get` has type value-or-null and the entry records only
`expiresAt`, so the 6-minute read carries no `stale = true` tag and the
store does not distinguish a stale-but-usable window from freshness. -/
theorem cacheService_no_stale_tag_cex :
    CacheService.get cacheTenMin 360000 "k" =
      CacheService.get cacheTenMin 240000 "k" ∧
    (CacheService.get cacheTenMin 360000 "k").1 = some 42 := by
  exact ⟨rfl, rfl⟩

/-- Claim C3 amended: for an entry with ttl = 10 min written at time 0,
reads at 4 min and 6 min both return the value (with no staleness tag —
CacheService tracks only `expiresAt`, there is no `staleAfter` field and no
`isStale`), and a read at 11 min is a miss that removes the entry. -/
theorem cacheService_stale_window_amended :
    (CacheService.get cacheTenMin 240000 "k").1 = some 42 ∧
    (CacheService.get cacheTenMin 360000 "k").1 = some 42 ∧
    (CacheService.get cacheTenMin 660000 "k").1 = none ∧
    (CacheService.get cacheTenMin 660000 "k").2 = [] := by
  exact ⟨rfl, rfl, rfl, rfl⟩

/-- Counterexample to claim C4: `fetchWx` stores whatever result resolves
last.  With the generation-1 fetch returning payload 1 and the newer
generation-2 fetch returning payload 2, if generation 2 resolves first and
generation 1 resolves after it, the stored result is payload 1 — the
older-generation result overwrites the newer one, since the code has no
generation check. -/
theorem fetchWx_generation_cex :
    (applyResolutions { wx := none, error := none }
        [Except.ok 2, Except.ok 1]).wx = some 1 ∧
    some (1 : Nat) ≠ some 2 := by
  exact ⟨rfl, by decide⟩

/-- Claim C4 amended: for overlapping fetches on the single location key,
the stored result is that of whichever fetch resolves last, regardless of
which fetch started later — `fetchWx` applies `setWx` unconditionally on
resolution and has no generation tagging. -/
theorem fetchWx_last_resolution_wins {D : Type} (st : WxState D)
    (l : List (Except String D)) (d : D) :
    (applyResolutions st (l ++ [Except.ok d])).wx = some d := by
  simp [applyResolutions, List.foldl_append, fetchWxResolve]

/-- Counterexample to claim C5: when the marine collaborator fails, nothing
is logged — `fetchMarineData`'s catch block only sets `marineData` to null,
so the log stays empty (while the cycle indeed stays successful: the
snapshot and error state are untouched). -/
theorem marine_failure_not_logged_cex :
    (fetchMarineData waSample (Except.error "malformed")).log = [] ∧
    (fetchMarineData waSample (Except.error "malformed")).marineData = none ∧
    (fetchMarineData waSample (Except.error "malformed")).error = none ∧
    (fetchMarineData waSample (Except.error "malformed")).weatherData =
      some 7 := by
  exact ⟨rfl, rfl, rfl, rfl⟩

/-- Claim C5 amended: failure of the forecast collaborator (on its single
attempt — there is no retry) sets the fetch error and leaves the snapshot
un-updated, failing the fetch; failure of the marine collaborator after a
successful forecast fetch leaves the cycle successful with marine = null,
is not surfaced as a fetch failure, and is silently swallowed — nothing is
logged. -/
theorem forecast_mandatory_marine_optional {W M : Type} (st : WAState W M)
    (e f : String) (w : W) :
    (fetchWeatherData st (Except.error e)).error =
      some "Failed to fetch weather data" ∧
    (fetchWeatherData st (Except.error e)).weatherData = st.weatherData ∧
    (fetchMarineData (fetchWeatherData st (Except.ok w))
        (Except.error f)).weatherData = some w ∧
    (fetchMarineData (fetchWeatherData st (Except.ok w))
        (Except.error f)).error = none ∧
    (fetchMarineData (fetchWeatherData st (Except.ok w))
        (Except.error f)).marineData = none ∧
    (fetchMarineData (fetchWeatherData st (Except.ok w))
        (Except.error f)).log = st.log := by
  exact ⟨rfl, rfl, rfl, rfl, rfl, rfl⟩

set_option maxRecDepth 40000 in
/-- Claim C6: the repository's own Property 7 ("For all inputs longer than
the configured maximum, sanitizeQuery(input).length <= max") fails on the
code: `sanitizeSearchQuery` truncates to 100 characters BEFORE escaping, so
for an input of 101 left-angle-bracket characters the returned string is
the 4-character entity repeated 100 times — 400 code points, far above the
maximum of 100. -/
theorem sanitize_length_bug :
    (sanitizeSearchQuery (String.mk (List.replicate 101 ltC))).length = 400 ∧
    100 < 400 := by
  exact ⟨by decide, by decide⟩

/-- Counterexample to claim C7: on a whitespace-only input
`sanitizeSearchQuery` does not fail with ValidationError:EmptyInput — the
source function has no failure channel at all (it is a total
string-to-string function) and simply returns the empty string. -/
theorem sanitize_whitespace_cex : sanitizeSearchQuery "   " = "" := by
  decide

/-- Claim C7 amended: for every string composed solely of whitespace
characters, `sanitizeSearchQuery` returns the empty string; it performs no
rejection (the design document delegates validity checking to a separate
`isValidSearchInput` predicate, which is not part of `sanitizeSearchQuery`). -/
theorem sanitize_whitespace_empty (s : String)
    (h : ∀ c ∈ s.data, jsWhitespace c = true) : sanitizeSearchQuery s = "" := by
  have hdrop : ∀ l : List Char, (∀ c ∈ l, jsWhitespace c = true) →
      l.dropWhile jsWhitespace = [] := by
    intro l
    induction l with
    | nil => intro _; rfl
    | cons x xs ih =>
      intro hl
      have hx : jsWhitespace x = true := hl x (List.mem_cons_self x xs)
      simp only [List.dropWhile_cons, hx, if_true]
      exact ih (fun c hc => hl c (List.mem_cons_of_mem x hc))
  have h1 : trimJS s.data = [] := by
    unfold trimJS
    rw [hdrop s.data h]
    rfl
  show String.mk (escapeHtml ((trimJS s.data).take 100)) = ""
  rw [h1]
  rfl

/-- Witness for C7 amended: a single space. -/
theorem sanitize_whitespace_empty_witness : sanitizeSearchQuery " " = "" :=
  sanitize_whitespace_empty " " (by decide)

/-- Claim C8: the output of `sanitizeSearchQuery` never contains a raw
markup character among angle brackets and quotes, every ampersand in it
begins one of the five escape entities, and the escaped portion is exactly
the character-wise escaping of the truncated, trimmed input — so each
special character of the input appears in the output only in escaped form. -/
theorem sanitize_escapes_markup (s : String) :
    (∀ c ∈ (sanitizeSearchQuery s).data,
      c ≠ ltC ∧ c ≠ gtC ∧ c ≠ quotC ∧ c ≠ aposC) ∧
    ampOk (sanitizeSearchQuery s).data = true ∧
    (sanitizeSearchQuery s).data = ((trimJS s.data).take 100).flatMap escChar := by
  refine ⟨?_, ?_, ?_⟩
  · intro c hc
    rw [show (sanitizeSearchQuery s).data =
        escapeHtml ((trimJS s.data).take 100) from rfl,
      escapeHtml_eq_flatMap] at hc
    rcases List.mem_flatMap.mp hc with ⟨x, _, hcx⟩
    exact escChar_safe x c hcx
  · rw [show (sanitizeSearchQuery s).data =
        escapeHtml ((trimJS s.data).take 100) from rfl, escapeHtml_eq_flatMap]
    exact ampOk_flatMap_escChar _
  · rw [show (sanitizeSearchQuery s).data =
        escapeHtml ((trimJS s.data).take 100) from rfl]
    exact escapeHtml_eq_flatMap _

/-- Claim C9: the keystroke-timer semantics of `onSearch` are exactly 300ms
debouncing — running any time-ordered keystroke sequence through
`procEvents` issues a geocoding request precisely for those keystrokes (of
length at least 2) that no later keystroke follows within 300ms, i.e. a new
keystroke within 300ms cancels the pending resolve timer and the superseded
query is never requested. -/
theorem debounce_300ms (evs : List (Nat × String)) :
    procEvents none evs = debouncedSpec evs := by
  have h := procEvents_pendEmit evs none
  simpa [pendEmit] using h

/-- Claim C10: a search input of fewer than 2 characters resets the
candidate suggestion list to empty and schedules no geocoding request
(requests are only ever issued by a scheduled pending timer, and none is
scheduled). -/
theorem shortQuery_dropped (st : SearchState) (now : Nat) (v : String)
    (h : v.length < 2) :
    (onSearch st now v).hits = [] ∧ (onSearch st now v).pending = none := by
  simp [onSearch, h]

/-- Witness for C10: a one-character query on a state with a non-empty
suggestion list and a pending timer. -/
theorem shortQuery_dropped_witness :
    (onSearch searchSample 0 "a").hits = [] ∧
    (onSearch searchSample 0 "a").pending = none :=
  shortQuery_dropped searchSample 0 "a" (by decide)

end WeatherApp
